import Mathlib

/-!
Verification of the Kwite audio noise-cancellation pipeline.

This file gives a shallow embedding of the audio-processing core of the
Kwite repository and proves the behavioural claims about it.  Floating
point samples are modelled by exact rationals (`ℚ`); most properties
settled here (branch selection, clamping, exact copies, list/queue
bookkeeping) do not depend on `f32`/`f64` rounding.  The one place a
claim hinges on `f32` rounding — the fallback voice-activity detector's
history averaging — is modelled bit-exactly: `roundF32` implements
binary32 round-to-nearest-even on the value range this computation
inhabits, and the `vadDetectStepF32` variant reproduces the program's
`sum::<f32>() / len as f32` smoothing.  Where the source compares an
RMS value obtained through `sqrt` against a threshold, the outcome of
that comparison is passed in as an abstract boolean, since only the
comparison result (never the RMS value itself) flows onward.
-/

namespace Kwite

/-- Model of an `f32` value that distinguishes finite from non-finite
values.  Finite values carry an exact rational payload; `nan`, `inf` and
`negInf` are the non-finite cases checked by `is_finite` in the source. -/
inductive F32 where
  | finite (val : ℚ)
  | nan
  | inf
  | negInf
deriving DecidableEq, Repr

/-- Mirror of Rust `f32::is_finite`. -/
def F32.isFinite : F32 → Bool
  | .finite _ => true
  | _ => false

/-- Rust `x.clamp(lo, hi)` on rationals (for `lo ≤ hi`). -/
def clampQ (x lo hi : ℚ) : ℚ := min (max x lo) hi

/-! ## `src/audio/analysis.rs` -/

/-- `NoiseType` from `src/audio/analysis.rs`. -/
inductive NoiseType where
  | Silence
  | Speech
  | Keyboard
  | HVAC
  | Music
  | Unknown
deriving DecidableEq, Repr

/-- `FrequencyProfile` from `src/audio/analysis.rs` (rational model of
the `f32` fields). -/
structure FrequencyProfile where
  total_energy : ℚ
  low_freq_ratio : ℚ
  mid_freq_ratio : ℚ
  high_freq_ratio : ℚ
  spectral_centroid : ℚ
  spectral_rolloff : ℚ
deriving DecidableEq, Repr

/-- `AudioContext` from `src/audio/analysis.rs`. -/
structure AudioContext where
  voice_probability : ℚ
  noise_type : NoiseType
  frequency_profile : FrequencyProfile
  recommended_gain : ℚ
deriving DecidableEq, Repr

/-- `AudioAnalyzer::classify_noise_type` from `src/audio/analysis.rs`:
a chain of early returns, first match wins. -/
def classify_noise_type (voice_prob : ℚ) (freq_profile : FrequencyProfile) :
    NoiseType :=
  if freq_profile.total_energy < 0.001 then .Silence
  else if voice_prob > 0.7 then .Speech
  else if freq_profile.high_freq_ratio > 0.3 ∧ freq_profile.spectral_centroid > 2000 then .Keyboard
  else if freq_profile.low_freq_ratio > 0.6 ∧ freq_profile.spectral_rolloff < 500 then .HVAC
  else if freq_profile.mid_freq_ratio > 0.4 ∧ freq_profile.spectral_centroid > 1000 then .Music
  else .Unknown

/-- The raw per-frame probability of the fallback
`VoiceActivityDetector::detect` from `src/audio/analysis.rs` (the
`not(feature = "ai-enhanced")` build), as the source writes it (the
decimal literals read at face value).  The comparison
`rms > energy_threshold` is abstracted by the boolean `isVoice`, since
only its outcome flows onward. -/
def current_probability (isVoice : Bool) : ℚ := if isVoice then 0.8 else 0.2

/-- One step of the fallback detector with the history average taken in
EXACT arithmetic: push the raw probability, trim the history to the 10
most recent entries, return the new history and the exact mean.  This
is an idealization of `detect`: the program computes the mean in `f32`
(`sum::<f32>() / len as f32`, `src/audio/analysis.rs` line 144), which
can differ from the exact mean in the last binary32 place — see
`vadDetectStepF32` for the bit-exact model. -/
def vadDetectStep (hist : List ℚ) (isVoice : Bool) : List ℚ × ℚ :=
  let h := hist ++ [current_probability isVoice]
  let h := if h.length > 10 then h.tail else h
  (h, h.sum / (h.length : ℚ))

/-- Run the exact-mean fallback detector over a sequence of frames
(each frame is represented by the outcome of its energy comparison)
starting from an empty history; returns the list of smoothed
probabilities reported. -/
def vadRun : List ℚ → List Bool → List ℚ
  | _, [] => []
  | hist, b :: bs =>
      let s := vadDetectStep hist b
      s.2 :: vadRun s.1 bs

/-- `23 - exponent` of a rational in `[1/64, 64)`: the scaling that
brings a binary32 value of that magnitude to an integer significand in
`[2^23, 2^24)`.  The fallback detector's smoothing only ever handles
values in `[0.19, 8.2]` (probabilities, partial sums of at most ten of
them, and their averages), well inside this range. -/
def f32Scale (a : ℚ) : ℕ :=
  if a < 1/32 then 29
  else if a < 1/16 then 28
  else if a < 1/8 then 27
  else if a < 1/4 then 26
  else if a < 1/2 then 25
  else if a < 1 then 24
  else if a < 2 then 23
  else if a < 4 then 22
  else if a < 8 then 21
  else if a < 16 then 20
  else if a < 32 then 19
  else 18

/-- Binary32 round-to-nearest-even of a rational whose magnitude lies
in `f32Scale`'s range (no overflow or subnormals arise there): scale to
a significand in `[2^23, 2^24)`, round it to an integer with ties to
even, and scale back. -/
def roundF32 (x : ℚ) : ℚ :=
  if x = 0 then 0
  else
    let s : ℚ := if x < 0 then -1 else 1
    let a : ℚ := if x < 0 then -x else x
    let k : ℕ := f32Scale a
    let scaled : ℚ := a * 2 ^ k
    let f : ℤ := ⌊scaled⌋
    let frac : ℚ := scaled - (f : ℚ)
    let m : ℤ :=
      if frac < 1/2 then f
      else if 1/2 < frac then f + 1
      else if f % 2 = 0 then f else f + 1
    s * ((m : ℚ) / 2 ^ k)

/-- `f32` addition: exact sum, rounded. -/
def f32add (x y : ℚ) : ℚ := roundF32 (x + y)

/-- `f32` division: exact quotient, rounded. -/
def f32div (x y : ℚ) : ℚ := roundF32 (x / y)

/-- Rust `iter().sum::<f32>()`: left fold of `f32` additions from
`0.0`. -/
def sumF32 (l : List ℚ) : ℚ := l.foldl f32add 0

/-- The raw per-frame probability as the `f32` program stores it: the
literals `0.8f32` and `0.2f32` are the binary32 roundings of `4/5` and
`1/5`. -/
def vadRawF32 (isVoice : Bool) : ℚ :=
  if isVoice then roundF32 (4/5) else roundF32 (1/5)

/-- One step of the fallback detector with the history average computed
exactly as the program does: `f32` values in the history, `f32` left
fold for the sum and `f32` division by the (exactly representable)
length, `src/audio/analysis.rs` lines 135-144. -/
def vadDetectStepF32 (hist : List ℚ) (isVoice : Bool) : List ℚ × ℚ :=
  let h := hist ++ [vadRawF32 isVoice]
  let h := if h.length > 10 then h.tail else h
  (h, f32div (sumF32 h) (h.length : ℚ))

/-- Run the `f32` fallback detector from an empty history; returns the
list of smoothed probabilities reported. -/
def vadRunF32 : List ℚ → List Bool → List ℚ
  | _, [] => []
  | hist, b :: bs =>
      let s := vadDetectStepF32 hist b
      s.2 :: vadRunF32 s.1 bs

/-! ## `src/audio/process.rs` -/

/-- `ProcessingParameters` from `src/audio/process.rs` (the private
struct used by the enhanced processing path). -/
structure ProcParams where
  speech_gain : ℚ
  noise_gain : ℚ
  fade_gain : ℚ
  speech_threshold : ℚ
deriving DecidableEq, Repr

/-- `determine_processing_parameters` from `src/audio/process.rs`:
base parameters, per-noise-type adjustment, then the voice-probability
confidence refinement. -/
def determine_processing_parameters (context : AudioContext) : ProcParams :=
  let params : ProcParams :=
    { speech_gain := 0.85, noise_gain := 0.15, fade_gain := 0.6, speech_threshold := 0.5 }
  let params : ProcParams :=
    match context.noise_type with
    | .Speech => { params with speech_gain := 0.9, noise_gain := 0.3, speech_threshold := 0.4 }
    | .Keyboard => { params with speech_gain := 0.8, noise_gain := 0.05, speech_threshold := 0.6 }
    | .HVAC => { params with speech_gain := 0.85, noise_gain := 0.1, speech_threshold := 0.5 }
    | .Music => { params with speech_gain := 0.9, noise_gain := 0.4, speech_threshold := 0.3 }
    | .Silence => { params with speech_gain := 0.95, noise_gain := 0.05, speech_threshold := 0.3 }
    | .Unknown => { params with speech_gain := 0.8, noise_gain := 0.2, speech_threshold := 0.5 }
  if context.voice_probability > 0.8 then
    { params with speech_gain := min (params.speech_gain + 0.1) 1 }
  else if context.voice_probability < 0.2 then
    { params with noise_gain := max (params.noise_gain * 0.5) 0.02 }
  else
    params

/-- The `match`-only part of `determine_processing_parameters`, i.e. the
parameters before the voice-probability confidence refinement.  Used to
state that the refinement never fires for mid-range probabilities. -/
def determineParamsNoRefine (context : AudioContext) : ProcParams :=
  let params : ProcParams :=
    { speech_gain := 0.85, noise_gain := 0.15, fade_gain := 0.6, speech_threshold := 0.5 }
  match context.noise_type with
  | .Speech => { params with speech_gain := 0.9, noise_gain := 0.3, speech_threshold := 0.4 }
  | .Keyboard => { params with speech_gain := 0.8, noise_gain := 0.05, speech_threshold := 0.6 }
  | .HVAC => { params with speech_gain := 0.85, noise_gain := 0.1, speech_threshold := 0.5 }
  | .Music => { params with speech_gain := 0.9, noise_gain := 0.4, speech_threshold := 0.3 }
  | .Silence => { params with speech_gain := 0.95, noise_gain := 0.05, speech_threshold := 0.3 }
  | .Unknown => { params with speech_gain := 0.8, noise_gain := 0.2, speech_threshold := 0.5 }

/-- The smooth speech-confidence interpolation inside
`calculate_intelligent_gain` (`src/audio/process.rs`). -/
def speech_confidence (vad_score threshold : ℚ) : ℚ :=
  if vad_score > threshold then (vad_score - threshold) / (1 - threshold) else 0

/-- `calculate_intelligent_gain` from `src/audio/process.rs`. -/
def calculate_intelligent_gain (vad_score : ℚ) (context : AudioContext)
    (params : ProcParams) : ℚ :=
  let sc := speech_confidence vad_score params.speech_threshold
  let base_gain := params.noise_gain + sc * (params.speech_gain - params.noise_gain)
  let environmental_adjustment : ℚ :=
    match context.noise_type with
    | .Keyboard => if vad_score < 0.3 then 0.7 else 1
    | .HVAC => 0.9
    | _ => 1
  clampQ (base_gain * environmental_adjustment) 0.02 1

/-- The adaptive gain as the specification words it: the speech
confidence is written with an explicit clamp to `[0,1]`.  Stated from
the spec, to be compared with `calculate_intelligent_gain`. -/
def calculate_intelligent_gain_spec (vad_score : ℚ) (context : AudioContext)
    (params : ProcParams) : ℚ :=
  let sc := if vad_score > params.speech_threshold then
      clampQ ((vad_score - params.speech_threshold) / (1 - params.speech_threshold)) 0 1
    else 0
  let base_gain := params.noise_gain + sc * (params.speech_gain - params.noise_gain)
  let environmental_adjustment : ℚ :=
    match context.noise_type with
    | .Keyboard => if vad_score < 0.3 then 0.7 else 1
    | .HVAC => 0.9
    | _ => 1
  clampQ (base_gain * environmental_adjustment) 0.02 1

/-! ## `src/audio/mod.rs` — the processing thread -/

/-- One invocation of the `RELIABLE_DENOISER.with` closure in
`AudioManager::new` (`src/audio/mod.rs`): validate the frame size
(pass through and report `vad = 0.0` on mismatch), run the noise model
into a zeroed output buffer, then validate the output — if any sample
is non-finite the output is replaced by a copy of the input and
`vad = 0.0` is reported.  The external RNNoise model is abstracted as
`model`, a function from the input frame to an output frame and a VAD
score. -/
def rnnoiseStep (model : List F32 → List F32 × ℚ)
    (frame_input : List F32) : List F32 × ℚ :=
  if frame_input.length ≠ 480 then
    (frame_input, 0)
  else
    let r := model frame_input
    if r.1.any (fun s => ! s.isFinite) then
      (frame_input, 0)
    else
      r

/-- The gain selection of the processing loop in `AudioManager::new`
(`src/audio/mod.rs`).  `maxTestMode` models the global
`MAX_TEST_MODE_ENABLED` flag; `frameCount` is the loop's frame counter. -/
def processLoopGain (maxTestMode : Bool) (frameCount : ℕ) (vad_score : ℚ) : ℚ :=
  let use_max_test_mode := maxTestMode || decide (frameCount < 480)
  if use_max_test_mode then
    if vad_score < 0.8 then 0.005 else 0.98
  else
    if vad_score < 0.5 then 0.1 else 0.8

/-- The frame accumulator of the processing loop in `AudioManager::new`
(`src/audio/mod.rs`): `while frame_buffer.len() >= 480 { drain 480 }`.
The `while` loop is modelled with a structural fuel argument; each
iteration removes 480 samples, so `buf.length` is always enough fuel. -/
def drainAux (fuel : ℕ) (buf : List ℚ) : List (List ℚ) × List ℚ :=
  match fuel with
  | 0 => ([], buf)
  | fuel + 1 =>
      if 480 ≤ buf.length then
        let p := drainAux fuel (buf.drop 480)
        (buf.take 480 :: p.1, p.2)
      else
        ([], buf)

/-- Drain all complete 480-sample frames from the front of the buffer. -/
def drainFrames (buf : List ℚ) : List (List ℚ) × List ℚ :=
  drainAux buf.length buf

/-- Run the accumulator over a sequence of received chunks: each chunk
is appended to the buffer (`extend_from_slice`), then all complete
frames are drained.  Returns the emitted frames in order and the final
buffer contents. -/
def runAccum (buf : List ℚ) : List (List ℚ) → List (List ℚ) × List ℚ
  | [] => ([], buf)
  | c :: cs =>
      let p := drainFrames (buf ++ c)
      let q := runAccum p.2 cs
      (p.1 ++ q.1, q.2)

/-! ## `src/audio/pipeline.rs` -/

/-- `ProcessingParameters` from `src/audio/pipeline.rs` (the public
pipeline configuration). -/
structure PipelineParams where
  sensitivity : ℚ
  adaptive_mode : Bool
  noise_gate_enabled : Bool
  dynamic_range_enabled : Bool

/-- `PipelineStatistics` from `src/audio/pipeline.rs`.  Durations are
carried in nanoseconds.  The `avg_processing_time` update computes in
`f64` and truncates back to `u64` nanoseconds; here the same arithmetic
is done in `ℚ` with an explicit floor. -/
structure PipelineStats where
  total_frames : ℕ
  avg_processing_time_ns : ℕ
  peak_processing_time_ns : ℕ
  noise_type_distribution : NoiseType → ℕ
  avg_voice_probability : ℚ

/-- `PipelineStatistics::record_frame` from `src/audio/pipeline.rs`. -/
def PipelineStats.record_frame (s : PipelineStats) (processing_time_ns : ℕ)
    (context : AudioContext) : PipelineStats :=
  let total := s.total_frames + 1
  let frames_f : ℚ := (total : ℚ)
  let avg : ℕ :=
    (((s.avg_processing_time_ns : ℚ) * (frames_f - 1) / frames_f +
      (processing_time_ns : ℚ) / frames_f).floor).toNat
  let peak := if processing_time_ns > s.peak_processing_time_ns then
      processing_time_ns else s.peak_processing_time_ns
  let dist := fun t => if t = context.noise_type then
      s.noise_type_distribution t + 1 else s.noise_type_distribution t
  let avgVp := s.avg_voice_probability * (frames_f - 1) / frames_f +
      context.voice_probability / frames_f
  { total_frames := total, avg_processing_time_ns := avg,
    peak_processing_time_ns := peak, noise_type_distribution := dist,
    avg_voice_probability := avgVp }

/-- `AdvancedNoisePipeline::apply_adaptive_gain` from
`src/audio/pipeline.rs`. -/
def apply_adaptive_gain (samples : List ℚ) (context : AudioContext) : List ℚ :=
  let base_gain := context.recommended_gain
  let type_adjustment : ℚ :=
    match context.noise_type with
    | .Speech => 1
    | .Keyboard => 0.5
    | .HVAC => 0.7
    | .Music => 0.9
    | .Silence => 0.3
    | .Unknown => 0.8
  let final_gain := clampQ (base_gain * type_adjustment) 0 1
  samples.map (fun s => s * final_gain)

/-- The stateful stages of `AdvancedNoisePipeline` that wrap external
or transcendental computations (`SpectralGate::process`,
`AudioAnalyzer::analyze_audio_context`, the RNNoise denoiser,
`DynamicRangeProcessor::process`).  Each is abstracted as a function
from its state and the working buffer to its new state and result; the
orchestration in `process_frame` is modelled exactly. -/
structure PipelineStages (G A D P : Type) where
  gate : G → List ℚ → G × List ℚ
  analyze : A → List ℚ → A × AudioContext
  denoise : D → List ℚ → D × (List ℚ × ℚ)
  post : P → List ℚ → P × List ℚ

/-- `AdvancedNoisePipeline::process_frame` from `src/audio/pipeline.rs`,
written stage by stage following the source: copy input into the output
buffer, spectral gate when `noise_gate_enabled`, analysis, denoising
(the denoiser writes a temp buffer which is copied back), adaptive gain
when `adaptive_mode` and the simple two-level gain otherwise, dynamic
range processing when `dynamic_range_enabled`, then the statistics
update. -/
def pipelineProcessFrame {G A D P : Type} (st : PipelineStages G A D P)
    (params : PipelineParams) (g : G) (a : A) (d : D) (p : P)
    (stats : PipelineStats) (processing_time_ns : ℕ) (input : List ℚ) :
    (G × A × D × P × PipelineStats) × List ℚ × AudioContext :=
  let output := input
  let gated := if params.noise_gate_enabled then st.gate g output else (g, output)
  let g' := gated.1
  let output := gated.2
  let analyzed := st.analyze a output
  let a' := analyzed.1
  let audio_context := analyzed.2
  let denoised := st.denoise d output
  let d' := denoised.1
  let output := denoised.2.1
  let vad_score := denoised.2.2
  let output :=
    if params.adaptive_mode then
      apply_adaptive_gain output audio_context
    else
      let gain : ℚ := if vad_score > 0.5 then 0.8 else 0.2
      output.map (fun s => s * gain)
  let posted := if params.dynamic_range_enabled then st.post p output else (p, output)
  let p' := posted.1
  let output := posted.2
  let stats' := stats.record_frame processing_time_ns audio_context
  ((g', a', d', p', stats'), output, audio_context)

/-- The pipeline as the specification words it: copy input to a working
buffer; apply the spectral gate exactly when `noise_gate_enabled`;
always run the analyzer (on the gated buffer); run the noise model (on
the gated buffer); apply the adaptive gain exactly when `adaptive_mode`
and otherwise scale every sample by the simple two-level gain (`0.8`
when `vad > 0.5`, else `0.2`); apply the dynamic-range processor exactly
when `dynamic_range_enabled`; finally update the statistics.  Stated
from the spec, to be compared with `pipelineProcessFrame`. -/
def pipelineProcessFrameSpec {G A D P : Type} (st : PipelineStages G A D P)
    (params : PipelineParams) (g : G) (a : A) (d : D) (p : P)
    (stats : PipelineStats) (processing_time_ns : ℕ) (input : List ℚ) :
    (G × A × D × P × PipelineStats) × List ℚ × AudioContext :=
  let working := input
  let s1 := if params.noise_gate_enabled then st.gate g working else (g, working)
  let s2 := st.analyze a s1.2
  let ctx := s2.2
  let s3 := st.denoise d s1.2
  let vad := s3.2.2
  let afterGain :=
    if params.adaptive_mode then apply_adaptive_gain s3.2.1 ctx
    else s3.2.1.map (fun s => s * (if vad > 0.5 then 0.8 else 0.2))
  let s5 := if params.dynamic_range_enabled then st.post p afterGain
    else (p, afterGain)
  ((s1.1, s2.1, s3.1, s5.1, stats.record_frame processing_time_ns ctx),
    s5.2, ctx)

/-! ## `src/ai_metrics.rs` -/

/-- The metric-bearing fields of `AiMetrics` (`src/ai_metrics.rs`).
VAD scores are rationals, latencies are microseconds as naturals
(`u64`).  Fields whose updates involve `sqrt` (`model_confidence`) or
wall-clock time (`last_update`), and the display-only fields, are not
touched by the claims settled here and are omitted. -/
structure AiMetrics where
  vad_scores : List ℚ
  processing_latencies : List ℕ
  avg_vad_score : ℚ
  avg_latency_us : ℕ
  peak_latency_us : ℕ
  total_frames : ℕ
deriving DecidableEq, Repr

/-- The empty collector (`AiMetrics::default`, restricted to the
modelled fields). -/
def AiMetrics.empty : AiMetrics :=
  { vad_scores := [], processing_latencies := [], avg_vad_score := 0,
    avg_latency_us := 0, peak_latency_us := 0, total_frames := 0 }

/-- `AiMetrics::record_frame` followed by its `update_averages` call
(`src/ai_metrics.rs`): push the VAD score and the latency, evicting the
oldest entry once the queue exceeds 100; bump `total_frames`; update the
peak; recompute both rolling averages over the stored queues (the
latency average uses `u64` integer division, modelled by `ℕ` division). -/
def AiMetrics.record_frame (m : AiMetrics) (vad_score : ℚ) (latency_us : ℕ) :
    AiMetrics :=
  let v := m.vad_scores ++ [vad_score]
  let v := if v.length > 100 then v.tail else v
  let l := m.processing_latencies ++ [latency_us]
  let l := if l.length > 100 then l.tail else l
  let total := m.total_frames + 1
  let peak := if latency_us > m.peak_latency_us then latency_us
    else m.peak_latency_us
  let avgV := if v.length ≠ 0 then v.sum / (v.length : ℚ) else m.avg_vad_score
  let avgL := if l.length ≠ 0 then l.sum / l.length else m.avg_latency_us
  { vad_scores := v, processing_latencies := l, avg_vad_score := avgV,
    avg_latency_us := avgL, peak_latency_us := peak, total_frames := total }

/-- `AiMetrics::reset` (`src/ai_metrics.rs`), restricted to the
modelled fields: clears both queues and zeroes every aggregate. -/
def AiMetrics.reset (_ : AiMetrics) : AiMetrics := AiMetrics.empty

/-- Fold `record_frame` over a list of `(vad, latency)` samples starting
from the empty collector. -/
def runMetrics (ps : List (ℚ × ℕ)) : AiMetrics :=
  ps.foldl (fun m p => m.record_frame p.1 p.2) AiMetrics.empty

/-- The `n` most recent elements of a list. -/
def lastN (n : ℕ) (l : List α) : List α := l.drop (l.length - n)

/-! ## `src/audio/resampling.rs` -/

/-- `adapt_frame_for_rnnoise` from `src/audio/resampling.rs`.  The
`f64` interpolation arithmetic is modelled exactly in `ℚ` (`as usize`
on a non-negative value is a floor); the formatted error strings are
modelled by fixed messages. -/
def adapt_frame_for_rnnoise (input : List ℚ) (sample_rate : ℕ) :
    Except String (List ℚ) :=
  if sample_rate = 48000 ∧ input.length = 480 then
    .ok input
  else if sample_rate = 48000 then
    if input.length < 480 then
      .ok (input ++ List.replicate (480 - input.length) 0)
    else
      .ok (input.take 480)
  else if sample_rate = 44100 then
    if input.length ≠ 441 then
      .error "Expected 441 samples for 44.1kHz (10ms)"
    else
      .ok ((List.range 480).map (fun i : ℕ =>
        let src_pos : ℚ := (i : ℚ) * ((input.length : ℚ) / 480)
        let src_index : ℕ := (⌊src_pos⌋).toNat
        let fraction : ℚ := src_pos - (src_index : ℚ)
        if src_index + 1 < input.length then
          input.getD src_index 0 +
            fraction * (input.getD (src_index + 1) 0 - input.getD src_index 0)
        else if src_index < input.length then
          input.getD src_index 0
        else 0))
  else
    .error "Unsupported sample rate"

/-! ## `src/audio/capture.rs` -/

/-- The 44.1 kHz → 48 kHz conversion inside the capture callback of
`start_input_stream` (`src/audio/capture.rs`): for each output index the
source index is `floor(i * 44100 / 48000)` and the sample is copied
verbatim (no interpolation), or `0.0` when the index is out of range.
The `f64` index arithmetic is exact for all realistic chunk sizes and is
modelled by `ℕ` division. -/
def captureResample441 (mono_data : List ℚ) : List ℚ :=
  let target_length := mono_data.length * 48000 / 44100
  (List.range target_length).map (fun i =>
    let src_index := i * 44100 / 48000
    if src_index < mono_data.length then mono_data.getD src_index 0 else 0)

/-! ## Helper lemmas -/

/-- Indexing a map over `List.range`. -/
theorem getD_map_range (f : ℕ → ℚ) (n i : ℕ) (d : ℚ) (h : i < n) :
    ((List.range n).map f).getD i d = f i := by
  rw [List.getD_eq_getElem?_getD, List.getElem?_map, List.getElem?_range h]
  rfl

/-! ## C1 -/

/-- C1: whenever the abstracted noise model produces an output frame
containing a non-finite sample, the processing closure recovers locally:
the returned frame is an exact copy of the input frame and the reported
VAD score is `0.0`; the call still returns a frame (no failure is
signalled), so the frame continues through the pipeline. -/
theorem rnnoise_nonfinite_recovery (model : List F32 → List F32 × ℚ)
    (frame_input : List F32)
    (h : (model frame_input).1.any (fun s => ! s.isFinite) = true) :
    rnnoiseStep model frame_input = (frame_input, 0) := by
  unfold rnnoiseStep
  split
  · rfl
  · simp [h]

theorem rnnoise_nonfinite_recovery_witness :
    ((fun _ : List F32 => ([F32.nan], (9 : ℚ)/10))
        (List.replicate 480 (F32.finite 0))).1.any (fun s => ! s.isFinite) = true ∧
    rnnoiseStep (fun _ : List F32 => ([F32.nan], (9 : ℚ)/10))
        (List.replicate 480 (F32.finite 0)) =
      (List.replicate 480 (F32.finite 0), 0) :=
  ⟨by decide,
    rnnoise_nonfinite_recovery (fun _ => ([F32.nan], (9 : ℚ)/10))
      (List.replicate 480 (F32.finite 0)) (by decide)⟩

/-! ## C2 -/

/-- C2: for every frame with `frame_count < 480` the processing loop
selects the extreme test-mode gains — `0.005` when the frame's VAD score
is below `0.8`, `0.98` otherwise — regardless of whether the
`MAX_TEST_MODE_ENABLED` flag is set (the loop consults no other
configuration for this choice). -/
theorem first_ten_seconds_max_mode (maxTestMode : Bool) (frameCount : ℕ)
    (vad_score : ℚ) (h : frameCount < 480) :
    processLoopGain maxTestMode frameCount vad_score =
      if vad_score < 0.8 then 0.005 else 0.98 := by
  simp [processLoopGain, h]

theorem first_ten_seconds_max_mode_witness :
    (0 : ℕ) < 480 ∧
    processLoopGain false 0 0 = if (0 : ℚ) < 0.8 then 0.005 else 0.98 :=
  ⟨by decide, first_ten_seconds_max_mode false 0 0 (by decide)⟩

/-! ## C4 -/

/-- C4: the noise-type classifier applies its rules in priority order
with the first match winning (each later rule only fires when every
earlier guard failed), and the profile
`{total_energy = 0.5, low = 0.7, mid = 0.2, high = 0.1,
centroid = 300, rolloff = 400}` with `voice_probability = 0.1` is
classified as HVAC. -/
theorem classify_priority (voice_prob : ℚ) (fp : FrequencyProfile) :
    (fp.total_energy < 0.001 →
      classify_noise_type voice_prob fp = .Silence) ∧
    (¬ fp.total_energy < 0.001 → voice_prob > 0.7 →
      classify_noise_type voice_prob fp = .Speech) ∧
    (¬ fp.total_energy < 0.001 → ¬ voice_prob > 0.7 →
      fp.high_freq_ratio > 0.3 ∧ fp.spectral_centroid > 2000 →
      classify_noise_type voice_prob fp = .Keyboard) ∧
    (¬ fp.total_energy < 0.001 → ¬ voice_prob > 0.7 →
      ¬ (fp.high_freq_ratio > 0.3 ∧ fp.spectral_centroid > 2000) →
      fp.low_freq_ratio > 0.6 ∧ fp.spectral_rolloff < 500 →
      classify_noise_type voice_prob fp = .HVAC) ∧
    (¬ fp.total_energy < 0.001 → ¬ voice_prob > 0.7 →
      ¬ (fp.high_freq_ratio > 0.3 ∧ fp.spectral_centroid > 2000) →
      ¬ (fp.low_freq_ratio > 0.6 ∧ fp.spectral_rolloff < 500) →
      fp.mid_freq_ratio > 0.4 ∧ fp.spectral_centroid > 1000 →
      classify_noise_type voice_prob fp = .Music) ∧
    (¬ fp.total_energy < 0.001 → ¬ voice_prob > 0.7 →
      ¬ (fp.high_freq_ratio > 0.3 ∧ fp.spectral_centroid > 2000) →
      ¬ (fp.low_freq_ratio > 0.6 ∧ fp.spectral_rolloff < 500) →
      ¬ (fp.mid_freq_ratio > 0.4 ∧ fp.spectral_centroid > 1000) →
      classify_noise_type voice_prob fp = .Unknown) ∧
    classify_noise_type 0.1
      { total_energy := 0.5, low_freq_ratio := 0.7, mid_freq_ratio := 0.2,
        high_freq_ratio := 0.1, spectral_centroid := 300,
        spectral_rolloff := 400 } = .HVAC := by
  refine ⟨?_, ?_, ?_, ?_, ?_, ?_, ?_⟩
  · intro h1; simp [classify_noise_type, h1]
  · intro h1 h2; simp [classify_noise_type, h1, h2]
  · intro h1 h2 h3; simp [classify_noise_type, h1, h2, h3]
  · intro h1 h2 h3 h4; simp [classify_noise_type, h1, h2, h3, h4]
  · intro h1 h2 h3 h4 h5; simp [classify_noise_type, h1, h2, h3, h4, h5]
  · intro h1 h2 h3 h4 h5; simp [classify_noise_type, h1, h2, h3, h4, h5]
  · norm_num [classify_noise_type]

theorem classify_priority_witness :
    (¬ (0.5 : ℚ) < 0.001) ∧ (¬ (0.1 : ℚ) > 0.7) ∧
    (¬ ((0.1 : ℚ) > 0.3 ∧ (300 : ℚ) > 2000)) ∧
    ((0.7 : ℚ) > 0.6 ∧ (400 : ℚ) < 500) ∧
    classify_noise_type 0.1
      { total_energy := 0.5, low_freq_ratio := 0.7, mid_freq_ratio := 0.2,
        high_freq_ratio := 0.1, spectral_centroid := 300,
        spectral_rolloff := 400 } = .HVAC :=
  ⟨by norm_num, by norm_num, by norm_num, by norm_num,
    (classify_priority 0.1
      { total_energy := 0.5, low_freq_ratio := 0.7, mid_freq_ratio := 0.2,
        high_freq_ratio := 0.1, spectral_centroid := 300,
        spectral_rolloff := 400 }).2.2.2.1
      (by norm_num) (by norm_num) (by norm_num) (by norm_num)⟩

/-! ## C5 -/

/-- C5: for every VAD score in `[0,1]`, context and parameter record,
the adaptive gain equals the spec's formula (whose speech confidence
carries an explicit clamp to `[0,1]` — the code's unclamped ratio never
leaves that interval); `speech_confidence 0.9 0.5 = 0.8`; the result
always lies in `[0.02, 1]`; and for `vad = 0.9` with parameters derived
by `determine_processing_parameters` whose threshold is `0.5`, the
result is strictly greater than the noise gain. -/
theorem intelligent_gain_conformance :
    (∀ (vad : ℚ) (ctx : AudioContext) (params : ProcParams),
      0 ≤ vad → vad ≤ 1 →
      calculate_intelligent_gain vad ctx params =
        calculate_intelligent_gain_spec vad ctx params) ∧
    speech_confidence 0.9 0.5 = 0.8 ∧
    (∀ (vad : ℚ) (ctx : AudioContext) (params : ProcParams),
      0.02 ≤ calculate_intelligent_gain vad ctx params ∧
      calculate_intelligent_gain vad ctx params ≤ 1) ∧
    (∀ ctx : AudioContext,
      (determine_processing_parameters ctx).speech_threshold = 0.5 →
      calculate_intelligent_gain 0.9 ctx (determine_processing_parameters ctx) >
        (determine_processing_parameters ctx).noise_gain) := by
  refine ⟨?_, ?_, ?_, ?_⟩
  · intro vad ctx params h0 h1
    by_cases hvt : vad > params.speech_threshold
    · have ht1 : params.speech_threshold < 1 := lt_of_lt_of_le hvt h1
      have hden : (0 : ℚ) < 1 - params.speech_threshold := by linarith
      have hge : 0 ≤ (vad - params.speech_threshold) / (1 - params.speech_threshold) :=
        div_nonneg (by linarith) hden.le
      have hle : (vad - params.speech_threshold) / (1 - params.speech_threshold) ≤ 1 := by
        rw [div_le_one hden]; linarith
      simp [calculate_intelligent_gain, calculate_intelligent_gain_spec,
        speech_confidence, clampQ, hvt, max_eq_left hge, min_eq_left hle]
    · simp [calculate_intelligent_gain, calculate_intelligent_gain_spec,
        speech_confidence, hvt]
  · norm_num [speech_confidence]
  · intro vad ctx params
    simp only [calculate_intelligent_gain, clampQ]
    refine ⟨le_min (le_max_right _ _) (by norm_num), min_le_right _ _⟩
  · intro ctx h
    obtain ⟨vp, nt, fp, rg⟩ := ctx
    cases nt <;>
      simp only [determine_processing_parameters] at h ⊢ <;>
      split_ifs at h ⊢ <;>
      norm_num [calculate_intelligent_gain, speech_confidence, clampQ,
        min_def, max_def]

theorem intelligent_gain_conformance_witness :
    (0 : ℚ) ≤ 0.9 ∧ (0.9 : ℚ) ≤ 1 ∧
    (determine_processing_parameters
      { voice_probability := 0.5, noise_type := .HVAC,
        frequency_profile :=
          { total_energy := 0.5, low_freq_ratio := 0.7, mid_freq_ratio := 0.2,
            high_freq_ratio := 0.1, spectral_centroid := 300,
            spectral_rolloff := 400 },
        recommended_gain := 0.15 }).speech_threshold = 0.5 ∧
    calculate_intelligent_gain 0.9
        { voice_probability := 0.5, noise_type := .HVAC,
          frequency_profile :=
            { total_energy := 0.5, low_freq_ratio := 0.7, mid_freq_ratio := 0.2,
              high_freq_ratio := 0.1, spectral_centroid := 300,
              spectral_rolloff := 400 },
          recommended_gain := 0.15 }
        (determine_processing_parameters
          { voice_probability := 0.5, noise_type := .HVAC,
            frequency_profile :=
              { total_energy := 0.5, low_freq_ratio := 0.7, mid_freq_ratio := 0.2,
                high_freq_ratio := 0.1, spectral_centroid := 300,
                spectral_rolloff := 400 },
            recommended_gain := 0.15 }) >
      (determine_processing_parameters
        { voice_probability := 0.5, noise_type := .HVAC,
          frequency_profile :=
            { total_energy := 0.5, low_freq_ratio := 0.7, mid_freq_ratio := 0.2,
              high_freq_ratio := 0.1, spectral_centroid := 300,
              spectral_rolloff := 400 },
          recommended_gain := 0.15 }).noise_gain :=
  ⟨by norm_num, by norm_num,
    by norm_num [determine_processing_parameters],
    intelligent_gain_conformance.2.2.2 _
      (by norm_num [determine_processing_parameters])⟩

/-! ## C6 -/

/-- C6: the pipeline orchestrator runs its stages in the fixed order the
spec states — copy the input to a working buffer, spectral gate exactly
when `noise_gate_enabled`, always run the analyzer, run the noise model,
adaptive gain exactly when `adaptive_mode` and otherwise the simple
two-level gain (`0.8` when `vad > 0.5`, else `0.2`) on every sample,
dynamic-range processing exactly when `dynamic_range_enabled`, then the
statistics update: `pipelineProcessFrame` (translated from the source)
coincides with `pipelineProcessFrameSpec` (written from the spec) for
every choice of stages, flags, states and input. -/
theorem pipeline_stage_order {G A D P : Type} (st : PipelineStages G A D P)
    (params : PipelineParams) (g : G) (a : A) (d : D) (p : P)
    (stats : PipelineStats) (processing_time_ns : ℕ) (input : List ℚ) :
    pipelineProcessFrame st params g a d p stats processing_time_ns input =
      pipelineProcessFrameSpec st params g a d p stats processing_time_ns input :=
  rfl

/-! ## C3 -/

/-- A small buffer drains to nothing, whatever the fuel. -/
theorem drainAux_small (fuel : ℕ) (buf : List ℚ) (h : buf.length < 480) :
    drainAux fuel buf = ([], buf) := by
  cases fuel with
  | zero => rfl
  | succ n => simp [drainAux, Nat.not_le.mpr h]

/-- Invariant of the drain loop: with enough fuel, the emitted frames
concatenated with the leftover buffer reproduce the input, every frame
has exactly 480 samples, and fewer than 480 samples remain. -/
theorem drainAux_spec (fuel : ℕ) :
    ∀ buf : List ℚ, buf.length ≤ fuel →
      (drainAux fuel buf).1.flatten ++ (drainAux fuel buf).2 = buf ∧
      (∀ f ∈ (drainAux fuel buf).1, f.length = 480) ∧
      (drainAux fuel buf).2.length < 480 := by
  induction fuel with
  | zero =>
      intro buf h
      have hb : buf = [] := List.length_eq_zero.mp (Nat.le_zero.mp h)
      subst hb
      simp [drainAux]
  | succ n ih =>
      intro buf h
      by_cases hb : 480 ≤ buf.length
      · have hdrop : (buf.drop 480).length ≤ n := by
          simp only [List.length_drop]; omega
        obtain ⟨h1, h2, h3⟩ := ih (buf.drop 480) hdrop
        simp only [drainAux, hb, if_true]
        refine ⟨?_, ?_, h3⟩
        · rw [List.flatten_cons, List.append_assoc, h1, List.take_append_drop]
        · intro f hf
          rcases List.mem_cons.mp hf with hf | hf
          · subst hf
            simp only [List.length_take]
            omega
          · exact h2 f hf
      · simp only [drainAux, hb, if_false]
        exact ⟨by simp, by simp, Nat.lt_of_not_le hb⟩

/-- `drainAux_spec` at the fuel `drainFrames` actually uses. -/
theorem drainFrames_spec (buf : List ℚ) :
    (drainFrames buf).1.flatten ++ (drainFrames buf).2 = buf ∧
    (∀ f ∈ (drainFrames buf).1, f.length = 480) ∧
    (drainFrames buf).2.length < 480 :=
  drainAux_spec buf.length buf le_rfl

/-- Invariant of the chunk-accumulation loop. -/
theorem runAccum_spec (cs : List (List ℚ)) :
    ∀ buf : List ℚ, buf.length < 480 →
      (runAccum buf cs).1.flatten ++ (runAccum buf cs).2 = buf ++ cs.flatten ∧
      (∀ f ∈ (runAccum buf cs).1, f.length = 480) ∧
      (runAccum buf cs).2.length < 480 := by
  induction cs with
  | nil => intro buf h; simpa [runAccum] using h
  | cons c cs ih =>
      intro buf h
      obtain ⟨d1, d2, d3⟩ := drainFrames_spec (buf ++ c)
      obtain ⟨r1, r2, r3⟩ := ih (drainFrames (buf ++ c)).2 d3
      simp only [runAccum]
      refine ⟨?_, ?_, r3⟩
      · rw [List.flatten_append, List.append_assoc, r1, ← List.append_assoc, d1,
          List.flatten_cons, List.append_assoc]
      · intro f hf
        rcases List.mem_append.mp hf with hf | hf
        · exact d2 f hf
        · exact r2 f hf

/-- The concatenation of lists that all have 480 elements has
`480 * count` elements. -/
theorem join_length_480 (L : List (List ℚ)) (h : ∀ f ∈ L, f.length = 480) :
    L.flatten.length = 480 * L.length := by
  induction L with
  | nil => simp
  | cons c cs ih =>
      have hc : c.length = 480 := h c (List.mem_cons_self c cs)
      have hcs : cs.flatten.length = 480 * cs.length :=
        ih (fun f hf => h f (List.mem_cons_of_mem c hf))
      simp only [List.flatten_cons, List.length_append, List.length_cons, hc, hcs]
      ring

/-- C3: starting from an empty buffer, for every chunk sequence whose
total sample count is a multiple of 480, the accumulator emits only
complete 480-sample frames whose in-order concatenation equals the
concatenation of the input chunks exactly, and nothing is left in the
buffer; moreover a buffer holding fewer than 480 samples never emits a
frame. -/
theorem frame_accumulator_exact :
    (∀ chunks : List (List ℚ), chunks.flatten.length % 480 = 0 →
      (runAccum [] chunks).1.flatten = chunks.flatten ∧
      (∀ f ∈ (runAccum [] chunks).1, f.length = 480) ∧
      (runAccum [] chunks).2 = []) ∧
    (∀ buf : List ℚ, buf.length < 480 → drainFrames buf = ([], buf)) := by
  constructor
  · intro chunks h
    obtain ⟨r1, r2, r3⟩ := runAccum_spec chunks [] (by norm_num)
    have hjl : (runAccum [] chunks).1.flatten.length =
        480 * (runAccum [] chunks).1.length := join_length_480 _ r2
    have hlen := congrArg List.length r1
    simp only [List.length_append, List.nil_append, hjl] at hlen
    have hrest : (runAccum [] chunks).2 = [] := by
      have : (runAccum [] chunks).2.length = 0 := by omega
      exact List.length_eq_zero.mp this
    refine ⟨?_, r2, hrest⟩
    rw [hrest, List.append_nil] at r1
    simpa using r1
  · exact fun buf h => drainAux_small buf.length buf h

theorem frame_accumulator_exact_witness :
    ([List.replicate 480 (0 : ℚ)] : List (List ℚ)).flatten.length % 480 = 0 ∧
    ((runAccum [] [List.replicate 480 (0 : ℚ)]).1.flatten =
        ([List.replicate 480 (0 : ℚ)] : List (List ℚ)).flatten ∧
      (∀ f ∈ (runAccum [] [List.replicate 480 (0 : ℚ)]).1, f.length = 480) ∧
      (runAccum [] [List.replicate 480 (0 : ℚ)]).2 = []) :=
  ⟨by simp only [List.flatten_cons, List.flatten_nil, List.append_nil,
      List.length_replicate, Nat.mod_self],
    frame_accumulator_exact.1 [List.replicate 480 (0 : ℚ)]
      (by simp only [List.flatten_cons, List.flatten_nil, List.append_nil,
        List.length_replicate, Nat.mod_self])⟩

/-! ## C7 -/

/-- C7: feeding the frame adapter exactly 441 samples at 44.1 kHz
succeeds with exactly 480 output samples whose first sample is within
`0.01` of the first input sample, and any rate other than 48 kHz and
44.1 kHz yields a typed error value. -/
theorem adapt_frame_resampling :
    (∀ input : List ℚ, input.length = 441 →
      ∃ out : List ℚ, adapt_frame_for_rnnoise input 44100 = .ok out ∧
        out.length = 480 ∧ |out.getD 0 0 - input.getD 0 0| < 0.01) ∧
    (∀ (input : List ℚ) (sample_rate : ℕ),
      sample_rate ≠ 48000 → sample_rate ≠ 44100 →
      adapt_frame_for_rnnoise input sample_rate =
        .error "Unsupported sample rate") := by
  constructor
  · intro input h
    unfold adapt_frame_for_rnnoise
    rw [if_neg (by simp), if_neg (by simp), if_pos rfl, if_neg (by simp [h])]
    refine ⟨_, rfl, by simp, ?_⟩
    rw [getD_map_range _ 480 0 0 (by norm_num)]
    simp [h]
    norm_num
  · intro input sample_rate h1 h2
    unfold adapt_frame_for_rnnoise
    rw [if_neg (fun hc => h1 hc.1), if_neg h1, if_neg h2]

theorem adapt_frame_resampling_witness :
    (List.replicate 441 (0.1 : ℚ)).length = 441 ∧
    (∃ out : List ℚ,
      adapt_frame_for_rnnoise (List.replicate 441 (0.1 : ℚ)) 44100 = .ok out ∧
        out.length = 480 ∧
        |out.getD 0 0 - (List.replicate 441 (0.1 : ℚ)).getD 0 0| < 0.01) ∧
    (22050 : ℕ) ≠ 48000 ∧ (22050 : ℕ) ≠ 44100 ∧
    adapt_frame_for_rnnoise ([] : List ℚ) 22050 =
      .error "Unsupported sample rate" :=
  ⟨by simp only [List.length_replicate],
    adapt_frame_resampling.1 (List.replicate 441 (0.1 : ℚ))
      (by simp only [List.length_replicate]),
    by norm_num, by norm_num,
    adapt_frame_resampling.2 [] 22050 (by norm_num) (by norm_num)⟩

/-! ## C9 -/

/-- C9: every sample produced by the capture callback's 44.1 kHz →
48 kHz conversion is a verbatim copy of the input sample at index
`floor(i * 44100 / 48000)` (or `0.0` when that index is out of range) —
sample-and-hold with no interpolation; in particular, whenever at least
two output samples exist, the first two both repeat the first input
sample. -/
theorem capture_sample_and_hold (mono_data : List ℚ) :
    (captureResample441 mono_data).length =
      mono_data.length * 48000 / 44100 ∧
    (∀ i : ℕ, i < mono_data.length * 48000 / 44100 →
      (captureResample441 mono_data).getD i 0 =
        if i * 44100 / 48000 < mono_data.length then
          mono_data.getD (i * 44100 / 48000) 0
        else 0) ∧
    (2 ≤ mono_data.length * 48000 / 44100 →
      (captureResample441 mono_data).getD 0 0 = mono_data.getD 0 0 ∧
      (captureResample441 mono_data).getD 1 0 = mono_data.getD 0 0) := by
  have hidx : ∀ i : ℕ, i < mono_data.length * 48000 / 44100 →
      (captureResample441 mono_data).getD i 0 =
        if i * 44100 / 48000 < mono_data.length then
          mono_data.getD (i * 44100 / 48000) 0
        else 0 := by
    intro i hi
    simp only [captureResample441]
    rw [getD_map_range _ _ _ _ hi]
  refine ⟨by simp [captureResample441], hidx, ?_⟩
  intro h2
  have hpos : 0 < mono_data.length := by omega
  constructor
  · rw [hidx 0 (by omega)]
    have h00 : 0 * 44100 / 48000 = 0 := by norm_num
    rw [h00, if_pos hpos]
  · rw [hidx 1 (by omega)]
    have h10 : 1 * 44100 / 48000 = 0 := by norm_num
    rw [h10, if_pos hpos]

theorem capture_sample_and_hold_witness :
    (0 : ℕ) < (List.replicate 3 (0.5 : ℚ)).length * 48000 / 44100 ∧
    (captureResample441 (List.replicate 3 (0.5 : ℚ))).getD 0 0 =
      (if 0 * 44100 / 48000 < (List.replicate 3 (0.5 : ℚ)).length then
        (List.replicate 3 (0.5 : ℚ)).getD (0 * 44100 / 48000) 0
      else 0) :=
  ⟨by norm_num,
    (capture_sample_and_hold (List.replicate 3 (0.5 : ℚ))).2.1 0 (by norm_num)⟩

/-! ## C8 -/

theorem lastN_of_le {α : Type _} (n : ℕ) (l : List α) (h : l.length ≤ n) :
    lastN n l = l := by
  simp [lastN, Nat.sub_eq_zero_of_le h]

theorem lastN_length {α : Type _} (n : ℕ) (l : List α) :
    (lastN n l).length = l.length - (l.length - n) := by
  simp [lastN]

/-- Pushing one element onto a 100-bounded queue and evicting the
oldest entry on overflow keeps exactly the 100 most recent elements. -/
theorem pushTrim_eq {α : Type _} (xs : List α) (x : α) :
    (if (lastN 100 xs ++ [x]).length > 100 then (lastN 100 xs ++ [x]).tail
      else lastN 100 xs ++ [x]) = lastN 100 (xs ++ [x]) := by
  by_cases hc : xs.length ≤ 99
  · rw [lastN_of_le 100 xs (by omega),
      if_neg (by simp only [List.length_append, List.length_cons,
        List.length_nil]; omega),
      lastN_of_le 100 (xs ++ [x]) (by simp only [List.length_append,
        List.length_cons, List.length_nil]; omega)]
  · have hlen : (lastN 100 xs).length = 100 := by rw [lastN_length]; omega
    rw [if_pos (by simp only [List.length_append, List.length_cons,
      List.length_nil, hlen]; omega)]
    have hne : lastN 100 xs ≠ [] := by
      intro hnil
      rw [hnil] at hlen
      simp at hlen
    rw [List.tail_append_singleton_of_ne_nil hne]
    show (List.drop (xs.length - 100) xs).tail ++ [x] = lastN 100 (xs ++ [x])
    rw [← List.drop_one, List.drop_drop, lastN, List.drop_append_eq_append_drop]
    simp only [List.length_append, List.length_cons, List.length_nil]
    have e1 : xs.length - 100 + 1 = xs.length + (0 + 1) - 100 := by omega
    have e2 : xs.length + (0 + 1) - 100 - xs.length = 0 := by omega
    rw [e1, e2, List.drop_zero]

/-- Unfolding one step of the metrics fold. -/
theorem runMetrics_append (ps : List (ℚ × ℕ)) (p : ℚ × ℕ) :
    runMetrics (ps ++ [p]) = (runMetrics ps).record_frame p.1 p.2 := by
  simp [runMetrics, List.foldl_append]

/-- State of the metrics collector after any sample sequence: both
queues hold exactly the 100 most recent samples, and (once nonempty)
each rolling average is the average of its queue. -/
theorem runMetrics_spec (ps : List (ℚ × ℕ)) :
    (runMetrics ps).vad_scores = lastN 100 (ps.map Prod.fst) ∧
    (runMetrics ps).processing_latencies = lastN 100 (ps.map Prod.snd) ∧
    (ps ≠ [] →
      (runMetrics ps).avg_vad_score =
        (lastN 100 (ps.map Prod.fst)).sum /
          ((lastN 100 (ps.map Prod.fst)).length : ℚ) ∧
      (runMetrics ps).avg_latency_us =
        (lastN 100 (ps.map Prod.snd)).sum /
          (lastN 100 (ps.map Prod.snd)).length) := by
  induction ps using List.reverseRecOn with
  | nil => simp [runMetrics, AiMetrics.empty, lastN]
  | append_singleton ps p ih =>
      obtain ⟨ih1, ih2, -⟩ := ih
      rw [runMetrics_append]
      simp only [AiMetrics.record_frame, ih1, ih2, List.map_append,
        List.map_cons, List.map_nil]
      rw [pushTrim_eq, pushTrim_eq]
      have hv : (lastN 100 (ps.map Prod.fst ++ [p.1])).length ≠ 0 := by
        rw [lastN_length]
        simp only [List.length_append, List.length_map, List.length_cons,
          List.length_nil]
        omega
      have hl : (lastN 100 (ps.map Prod.snd ++ [p.2])).length ≠ 0 := by
        rw [lastN_length]
        simp only [List.length_append, List.length_map, List.length_cons,
          List.length_nil]
        omega
      refine ⟨rfl, rfl, fun _ => ⟨?_, ?_⟩⟩
      · rw [if_pos hv]
      · rw [if_pos hl]

/-- C8: the collector keeps at most the 100 most recent VAD and latency
samples (exactly the most recent 100, oldest evicted first); after 101
samples the queues and rolling averages cover exactly the most recent
100; and `reset` restores the empty collector. -/
theorem metrics_rolling_window :
    (∀ ps : List (ℚ × ℕ),
      (runMetrics ps).vad_scores = lastN 100 (ps.map Prod.fst) ∧
      (runMetrics ps).processing_latencies = lastN 100 (ps.map Prod.snd) ∧
      (runMetrics ps).vad_scores.length ≤ 100 ∧
      (runMetrics ps).processing_latencies.length ≤ 100) ∧
    (∀ ps : List (ℚ × ℕ), ps.length = 101 →
      (runMetrics ps).vad_scores = (ps.map Prod.fst).tail ∧
      (runMetrics ps).avg_vad_score = (ps.map Prod.fst).tail.sum / 100 ∧
      (runMetrics ps).processing_latencies = (ps.map Prod.snd).tail ∧
      (runMetrics ps).avg_latency_us = (ps.map Prod.snd).tail.sum / 100) ∧
    (∀ m : AiMetrics, m.reset = AiMetrics.empty) := by
  refine ⟨?_, ?_, fun _ => rfl⟩
  · intro ps
    obtain ⟨h1, h2, -⟩ := runMetrics_spec ps
    refine ⟨h1, h2, ?_, ?_⟩
    · rw [h1, lastN_length]; omega
    · rw [h2, lastN_length]; omega
  · intro ps hlen
    obtain ⟨h1, h2, h3⟩ := runMetrics_spec ps
    have hne : ps ≠ [] := by
      intro h
      subst h
      simp at hlen
    obtain ⟨ha, hb⟩ := h3 hne
    have lf : (ps.map Prod.fst).length = 101 := by simp [hlen]
    have ls : (ps.map Prod.snd).length = 101 := by simp [hlen]
    have e1 : lastN 100 (ps.map Prod.fst) = (ps.map Prod.fst).tail := by
      rw [lastN, lf]
      norm_num [List.drop_one]
    have e2 : lastN 100 (ps.map Prod.snd) = (ps.map Prod.snd).tail := by
      rw [lastN, ls]
      norm_num [List.drop_one]
    refine ⟨by rw [h1, e1], ?_, by rw [h2, e2], ?_⟩
    · rw [ha, e1, List.length_tail, lf]
      norm_num
    · rw [hb, e2, List.length_tail, ls]

theorem metrics_rolling_window_witness :
    (List.replicate 101 ((0 : ℚ), (0 : ℕ))).length = 101 ∧
    ((runMetrics (List.replicate 101 ((0 : ℚ), (0 : ℕ)))).vad_scores =
        ((List.replicate 101 ((0 : ℚ), (0 : ℕ))).map Prod.fst).tail ∧
      (runMetrics (List.replicate 101 ((0 : ℚ), (0 : ℕ)))).avg_vad_score =
        ((List.replicate 101 ((0 : ℚ), (0 : ℕ))).map Prod.fst).tail.sum / 100 ∧
      (runMetrics (List.replicate 101 ((0 : ℚ), (0 : ℕ)))).processing_latencies =
        ((List.replicate 101 ((0 : ℚ), (0 : ℕ))).map Prod.snd).tail ∧
      (runMetrics (List.replicate 101 ((0 : ℚ), (0 : ℕ)))).avg_latency_us =
        ((List.replicate 101 ((0 : ℚ), (0 : ℕ))).map Prod.snd).tail.sum / 100) :=
  ⟨by simp only [List.length_replicate],
    metrics_rolling_window.2.1 (List.replicate 101 ((0 : ℚ), (0 : ℕ)))
      (by simp only [List.length_replicate])⟩

/-! ## C10 -/

/-- The average of a nonempty list of rationals in `[0.2, 0.8]` lies in
`[0.2, 0.8]`. -/
theorem avg_bounds (l : List ℚ) (hne : l ≠ [])
    (hb : ∀ x ∈ l, 0.2 ≤ x ∧ x ≤ 0.8) :
    0.2 ≤ l.sum / (l.length : ℚ) ∧ l.sum / (l.length : ℚ) ≤ 0.8 := by
  have hpos : (0 : ℚ) < (l.length : ℚ) := by
    exact_mod_cast List.length_pos.mpr hne
  have hlo : (l.length : ℚ) * 0.2 ≤ l.sum := by
    have := List.card_nsmul_le_sum l 0.2 (fun x hx => (hb x hx).1)
    rwa [nsmul_eq_mul] at this
  have hhi : l.sum ≤ (l.length : ℚ) * 0.8 := by
    have := List.sum_le_card_nsmul l 0.8 (fun x hx => (hb x hx).2)
    rwa [nsmul_eq_mul] at this
  constructor
  · rw [le_div_iff₀ hpos]
    linarith
  · rw [div_le_iff₀ hpos]
    linarith

/-- One detector step preserves the `[0.2, 0.8]` bounds of the history
and returns a smoothed probability in `[0.2, 0.8]`. -/
theorem vadStep_bounds (hist : List ℚ)
    (hb : ∀ x ∈ hist, 0.2 ≤ x ∧ x ≤ 0.8) (b : Bool) :
    (∀ x ∈ (vadDetectStep hist b).1, 0.2 ≤ x ∧ x ≤ 0.8) ∧
    (0.2 ≤ (vadDetectStep hist b).2 ∧ (vadDetectStep hist b).2 ≤ 0.8) := by
  have hp : 0.2 ≤ current_probability b ∧ current_probability b ≤ 0.8 := by
    cases b <;> norm_num [current_probability]
  have hmem : ∀ x ∈ hist ++ [current_probability b], 0.2 ≤ x ∧ x ≤ 0.8 := by
    intro x hx
    rcases List.mem_append.mp hx with hx | hx
    · exact hb x hx
    · rw [List.mem_singleton.mp hx]
      exact hp
  have hmem' : ∀ x ∈ (vadDetectStep hist b).1, 0.2 ≤ x ∧ x ≤ 0.8 := by
    intro x hx
    simp only [vadDetectStep] at hx
    split at hx
    · exact hmem x (List.mem_of_mem_tail hx)
    · exact hmem x hx
  have hne : (vadDetectStep hist b).1 ≠ [] := by
    simp only [vadDetectStep]
    split
    · intro hnil
      have := congrArg List.length hnil
      rename_i hgt
      simp only [List.length_tail, List.length_nil] at this
      omega
    · simp
  refine ⟨hmem', ?_⟩
  have havg := avg_bounds (vadDetectStep hist b).1 hne hmem'
  have h2 : (vadDetectStep hist b).2 =
      (vadDetectStep hist b).1.sum / ((vadDetectStep hist b).1.length : ℚ) := by
    simp only [vadDetectStep]
  rw [h2]
  exact havg

/-- Every probability the fallback detector reports over any frame
sequence, starting from an in-bounds history, lies in `[0.2, 0.8]`. -/
theorem vadRun_bounds (bs : List Bool) :
    ∀ hist : List ℚ, (∀ x ∈ hist, 0.2 ≤ x ∧ x ≤ 0.8) →
      ∀ q ∈ vadRun hist bs, 0.2 ≤ q ∧ q ≤ 0.8 := by
  induction bs with
  | nil => intro hist _ q hq; simp [vadRun] at hq
  | cons b bs ih =>
      intro hist hb q hq
      simp only [vadRun] at hq
      rcases List.mem_cons.mp hq with hq | hq
      · rw [hq]
        exact (vadStep_bounds hist hb b).2
      · exact ih _ (vadStep_bounds hist hb b).1 q hq

/-- Evaluation rule for `roundF32` on a positive value: supply the
floor `f` of the scaled significand and the rounded significand `m`;
every side condition is plain rational arithmetic. -/
theorem roundF32_pos_eval (x : ℚ) (f m : ℤ)
    (hx : 0 < x)
    (hf1 : (f : ℚ) ≤ x * 2 ^ f32Scale x)
    (hf2 : x * 2 ^ f32Scale x < (f : ℚ) + 1)
    (hm : (if x * 2 ^ f32Scale x - (f : ℚ) < 1/2 then f
           else if 1/2 < x * 2 ^ f32Scale x - (f : ℚ) then f + 1
           else if f % 2 = 0 then f else f + 1) = m) :
    roundF32 x = (m : ℚ) / 2 ^ f32Scale x := by
  have hne : ¬ x = 0 := ne_of_gt hx
  have hneg : ¬ x < 0 := not_lt.mpr hx.le
  have hfl : ⌊x * 2 ^ f32Scale x⌋ = f :=
    Int.floor_eq_iff.mpr ⟨hf1, by linarith⟩
  simp only [roundF32]
  rw [if_neg hne, if_neg hneg, if_neg hneg, hfl, hm, one_mul]

theorem roundF32_lit08 : roundF32 (4/5) = 13421773/16777216 := by
  rw [roundF32_pos_eval (4/5) 13421772 13421773 (by norm_num)
    (by norm_num [f32Scale]) (by norm_num [f32Scale]) (by norm_num [f32Scale])]
  norm_num [f32Scale]

theorem roundF32_lit02 : roundF32 (1/5) = 13421773/67108864 := by
  rw [roundF32_pos_eval (1/5) 13421772 13421773 (by norm_num)
    (by norm_num [f32Scale]) (by norm_num [f32Scale]) (by norm_num [f32Scale])]
  norm_num [f32Scale]

theorem vadRawF32_true : vadRawF32 true = 13421773/16777216 := by
  simp [vadRawF32, roundF32_lit08]

/-- The seven partial `f32` sums of consecutive `0.8f32` entries. -/
theorem sumF32_voice1 :
    sumF32 [(13421773 : ℚ)/16777216] = 13421773/16777216 := by
  show roundF32 (0 + 13421773/16777216) = 13421773/16777216
  rw [zero_add,
    roundF32_pos_eval _ 13421773 13421773 (by norm_num)
      (by norm_num [f32Scale]) (by norm_num [f32Scale]) (by norm_num [f32Scale])]
  norm_num [f32Scale]

theorem sumF32_voice2 :
    sumF32 [(13421773 : ℚ)/16777216, 13421773/16777216] = 26843546/16777216 := by
  show f32add (sumF32 [(13421773 : ℚ)/16777216]) (13421773/16777216) = _
  rw [sumF32_voice1, f32add,
    roundF32_pos_eval _ 13421773 13421773 (by norm_num)
      (by norm_num [f32Scale]) (by norm_num [f32Scale]) (by norm_num [f32Scale])]
  norm_num [f32Scale]

theorem sumF32_voice3 :
    sumF32 [(13421773 : ℚ)/16777216, 13421773/16777216, 13421773/16777216] =
      40265320/16777216 := by
  show f32add (sumF32 [(13421773 : ℚ)/16777216, 13421773/16777216])
      (13421773/16777216) = _
  rw [sumF32_voice2, f32add,
    roundF32_pos_eval _ 10066329 10066330 (by norm_num)
      (by norm_num [f32Scale]) (by norm_num [f32Scale]) (by norm_num [f32Scale])]
  norm_num [f32Scale]

theorem sumF32_voice4 :
    sumF32 [(13421773 : ℚ)/16777216, 13421773/16777216, 13421773/16777216,
      13421773/16777216] = 53687092/16777216 := by
  show f32add (sumF32 [(13421773 : ℚ)/16777216, 13421773/16777216,
      13421773/16777216]) (13421773/16777216) = _
  rw [sumF32_voice3, f32add,
    roundF32_pos_eval _ 13421773 13421773 (by norm_num)
      (by norm_num [f32Scale]) (by norm_num [f32Scale]) (by norm_num [f32Scale])]
  norm_num [f32Scale]

theorem sumF32_voice5 :
    sumF32 [(13421773 : ℚ)/16777216, 13421773/16777216, 13421773/16777216,
      13421773/16777216, 13421773/16777216] = 67108864/16777216 := by
  show f32add (sumF32 [(13421773 : ℚ)/16777216, 13421773/16777216,
      13421773/16777216, 13421773/16777216]) (13421773/16777216) = _
  rw [sumF32_voice4, f32add,
    roundF32_pos_eval _ 8388608 8388608 (by norm_num)
      (by norm_num [f32Scale]) (by norm_num [f32Scale]) (by norm_num [f32Scale])]
  norm_num [f32Scale]

theorem sumF32_voice6 :
    sumF32 [(13421773 : ℚ)/16777216, 13421773/16777216, 13421773/16777216,
      13421773/16777216, 13421773/16777216, 13421773/16777216] =
      80530640/16777216 := by
  show f32add (sumF32 [(13421773 : ℚ)/16777216, 13421773/16777216,
      13421773/16777216, 13421773/16777216, 13421773/16777216])
      (13421773/16777216) = _
  rw [sumF32_voice5, f32add,
    roundF32_pos_eval _ 10066329 10066330 (by norm_num)
      (by norm_num [f32Scale]) (by norm_num [f32Scale]) (by norm_num [f32Scale])]
  norm_num [f32Scale]

theorem sumF32_voice7 :
    sumF32 [(13421773 : ℚ)/16777216, 13421773/16777216, 13421773/16777216,
      13421773/16777216, 13421773/16777216, 13421773/16777216,
      13421773/16777216] = 93952416/16777216 := by
  show f32add (sumF32 [(13421773 : ℚ)/16777216, 13421773/16777216,
      13421773/16777216, 13421773/16777216, 13421773/16777216,
      13421773/16777216]) (13421773/16777216) = _
  rw [sumF32_voice6, f32add,
    roundF32_pos_eval _ 11744051 11744052 (by norm_num)
      (by norm_num [f32Scale]) (by norm_num [f32Scale]) (by norm_num [f32Scale])]
  norm_num [f32Scale]

/-- The seven `f32` averages: the first six round back to `0.8f32`, the
seventh lands one ulp above it. -/
theorem avgF32_voice1 :
    roundF32 ((13421773 : ℚ)/16777216 / 1) = 13421773/16777216 := by
  rw [roundF32_pos_eval _ 13421773 13421773 (by norm_num)
    (by norm_num [f32Scale]) (by norm_num [f32Scale]) (by norm_num [f32Scale])]
  norm_num [f32Scale]

theorem avgF32_voice2 :
    roundF32 ((26843546 : ℚ)/16777216 / 2) = 13421773/16777216 := by
  rw [roundF32_pos_eval _ 13421773 13421773 (by norm_num)
    (by norm_num [f32Scale]) (by norm_num [f32Scale]) (by norm_num [f32Scale])]
  norm_num [f32Scale]

theorem avgF32_voice3 :
    roundF32 ((40265320 : ℚ)/16777216 / 3) = 13421773/16777216 := by
  rw [roundF32_pos_eval _ 13421773 13421773 (by norm_num)
    (by norm_num [f32Scale]) (by norm_num [f32Scale]) (by norm_num [f32Scale])]
  norm_num [f32Scale]

theorem avgF32_voice4 :
    roundF32 ((53687092 : ℚ)/16777216 / 4) = 13421773/16777216 := by
  rw [roundF32_pos_eval _ 13421773 13421773 (by norm_num)
    (by norm_num [f32Scale]) (by norm_num [f32Scale]) (by norm_num [f32Scale])]
  norm_num [f32Scale]

theorem avgF32_voice5 :
    roundF32 ((67108864 : ℚ)/16777216 / 5) = 13421773/16777216 := by
  rw [roundF32_pos_eval _ 13421772 13421773 (by norm_num)
    (by norm_num [f32Scale]) (by norm_num [f32Scale]) (by norm_num [f32Scale])]
  norm_num [f32Scale]

theorem avgF32_voice6 :
    roundF32 ((80530640 : ℚ)/16777216 / 6) = 13421773/16777216 := by
  rw [roundF32_pos_eval _ 13421773 13421773 (by norm_num)
    (by norm_num [f32Scale]) (by norm_num [f32Scale]) (by norm_num [f32Scale])]
  norm_num [f32Scale]

theorem avgF32_voice7 :
    roundF32 ((93952416 : ℚ)/16777216 / 7) = 13421774/16777216 := by
  rw [roundF32_pos_eval _ 13421773 13421774 (by norm_num)
    (by norm_num [f32Scale]) (by norm_num [f32Scale]) (by norm_num [f32Scale])]
  norm_num [f32Scale]

theorem vadRawF32_false : vadRawF32 false = 13421773/67108864 := by
  rw [show vadRawF32 false = roundF32 (1/5) from rfl, roundF32_lit02]

/-- Evaluation rule for one `f32` detector step on a voice frame with
no history trim. -/
theorem vadStepF32_voice_eval (H H' : List ℚ) (S avg : ℚ)
    (hH : H ++ [(13421773 : ℚ)/16777216] = H')
    (hlen : H'.length ≤ 10)
    (hsum : sumF32 H' = S)
    (hdiv : roundF32 (S / (H'.length : ℚ)) = avg) :
    vadDetectStepF32 H true = (H', avg) := by
  simp only [vadDetectStepF32, vadRawF32_true, hH]
  rw [if_neg (by omega), Prod.mk.injEq]
  refine ⟨rfl, ?_⟩
  rw [hsum, f32div]
  exact hdiv

/-- The `f32` fallback detector on seven consecutive voice frames from
an empty history: the first six smoothed probabilities round back to
`0.8f32 = 13421773/2^24`, but the seventh is `13421774/2^24`, one ulp
ABOVE the `0.8` literal. -/
theorem vadRunF32_seven_voice :
    vadRunF32 [] [true, true, true, true, true, true, true] =
      [(13421773 : ℚ)/16777216, 13421773/16777216, 13421773/16777216,
        13421773/16777216, 13421773/16777216, 13421773/16777216,
        13421774/16777216] := by
  have h1 := vadStepF32_voice_eval [] [(13421773 : ℚ)/16777216] _
    (13421773/16777216)
    rfl (by norm_num) sumF32_voice1
    (by rw [show ((List.length [(13421773 : ℚ)/16777216] : ℕ) : ℚ) = 1 by norm_num]
        exact avgF32_voice1)
  have h2 := vadStepF32_voice_eval [(13421773 : ℚ)/16777216]
    [(13421773 : ℚ)/16777216, 13421773/16777216] _ (13421773/16777216)
    rfl (by norm_num) sumF32_voice2
    (by rw [show ((List.length [(13421773 : ℚ)/16777216, 13421773/16777216] : ℕ) : ℚ)
          = 2 by norm_num]
        exact avgF32_voice2)
  have h3 := vadStepF32_voice_eval
    [(13421773 : ℚ)/16777216, 13421773/16777216]
    [(13421773 : ℚ)/16777216, 13421773/16777216, 13421773/16777216] _
    (13421773/16777216)
    rfl (by norm_num) sumF32_voice3
    (by rw [show ((List.length [(13421773 : ℚ)/16777216, 13421773/16777216,
          13421773/16777216] : ℕ) : ℚ) = 3 by norm_num]
        exact avgF32_voice3)
  have h4 := vadStepF32_voice_eval
    [(13421773 : ℚ)/16777216, 13421773/16777216, 13421773/16777216]
    [(13421773 : ℚ)/16777216, 13421773/16777216, 13421773/16777216,
      13421773/16777216] _ (13421773/16777216)
    rfl (by norm_num) sumF32_voice4
    (by rw [show ((List.length [(13421773 : ℚ)/16777216, 13421773/16777216,
          13421773/16777216, 13421773/16777216] : ℕ) : ℚ) = 4 by norm_num]
        exact avgF32_voice4)
  have h5 := vadStepF32_voice_eval
    [(13421773 : ℚ)/16777216, 13421773/16777216, 13421773/16777216,
      13421773/16777216]
    [(13421773 : ℚ)/16777216, 13421773/16777216, 13421773/16777216,
      13421773/16777216, 13421773/16777216] _ (13421773/16777216)
    rfl (by norm_num) sumF32_voice5
    (by rw [show ((List.length [(13421773 : ℚ)/16777216, 13421773/16777216,
          13421773/16777216, 13421773/16777216, 13421773/16777216] : ℕ) : ℚ)
          = 5 by norm_num]
        exact avgF32_voice5)
  have h6 := vadStepF32_voice_eval
    [(13421773 : ℚ)/16777216, 13421773/16777216, 13421773/16777216,
      13421773/16777216, 13421773/16777216]
    [(13421773 : ℚ)/16777216, 13421773/16777216, 13421773/16777216,
      13421773/16777216, 13421773/16777216, 13421773/16777216] _
    (13421773/16777216)
    rfl (by norm_num) sumF32_voice6
    (by rw [show ((List.length [(13421773 : ℚ)/16777216, 13421773/16777216,
          13421773/16777216, 13421773/16777216, 13421773/16777216,
          13421773/16777216] : ℕ) : ℚ) = 6 by norm_num]
        exact avgF32_voice6)
  have h7 := vadStepF32_voice_eval
    [(13421773 : ℚ)/16777216, 13421773/16777216, 13421773/16777216,
      13421773/16777216, 13421773/16777216, 13421773/16777216]
    [(13421773 : ℚ)/16777216, 13421773/16777216, 13421773/16777216,
      13421773/16777216, 13421773/16777216, 13421773/16777216,
      13421773/16777216] _ (13421774/16777216)
    rfl (by norm_num) sumF32_voice7
    (by rw [show ((List.length [(13421773 : ℚ)/16777216, 13421773/16777216,
          13421773/16777216, 13421773/16777216, 13421773/16777216,
          13421773/16777216, 13421773/16777216] : ℕ) : ℚ) = 7 by norm_num]
        exact avgF32_voice7)
  simp only [vadRunF32, h1, h2, h3, h4, h5, h6, h7]

/-- C10 counterexample: the claim fails on the program's `f32`
arithmetic.  After seven consecutive voice frames from an empty
history, the fallback detector's smoothed probability is
`13421774/2^24 ≈ 0.80000007`, strictly above `0.8`; feeding that
`voice_probability` to `determine_processing_parameters` (here with
`noise_type = Speech`) makes the `> 0.8` confidence refinement fire:
`speech_gain` is raised to `1` where the unrefined value is `0.9`. -/
theorem fallback_vad_range_cex :
    (13421774 : ℚ)/16777216 ∈
      vadRunF32 [] [true, true, true, true, true, true, true] ∧
    ¬ ((13421774 : ℚ)/16777216 ≤ 0.8) ∧
    (determine_processing_parameters
      { voice_probability := 13421774/16777216, noise_type := .Speech,
        frequency_profile :=
          { total_energy := 0.5, low_freq_ratio := 0.3, mid_freq_ratio := 0.5,
            high_freq_ratio := 0.2, spectral_centroid := 1200,
            spectral_rolloff := 3000 },
        recommended_gain := 0.9 }).speech_gain = 1 ∧
    (determineParamsNoRefine
      { voice_probability := 13421774/16777216, noise_type := .Speech,
        frequency_profile :=
          { total_energy := 0.5, low_freq_ratio := 0.3, mid_freq_ratio := 0.5,
            high_freq_ratio := 0.2, spectral_centroid := 1200,
            spectral_rolloff := 3000 },
        recommended_gain := 0.9 }).speech_gain = 0.9 ∧
    determine_processing_parameters
      { voice_probability := 13421774/16777216, noise_type := .Speech,
        frequency_profile :=
          { total_energy := 0.5, low_freq_ratio := 0.3, mid_freq_ratio := 0.5,
            high_freq_ratio := 0.2, spectral_centroid := 1200,
            spectral_rolloff := 3000 },
        recommended_gain := 0.9 } ≠
    determineParamsNoRefine
      { voice_probability := 13421774/16777216, noise_type := .Speech,
        frequency_profile :=
          { total_energy := 0.5, low_freq_ratio := 0.3, mid_freq_ratio := 0.5,
            high_freq_ratio := 0.2, spectral_centroid := 1200,
            spectral_rolloff := 3000 },
        recommended_gain := 0.9 } := by
  have hg1 : (determine_processing_parameters
      { voice_probability := (13421774 : ℚ)/16777216, noise_type := .Speech,
        frequency_profile :=
          { total_energy := 0.5, low_freq_ratio := 0.3, mid_freq_ratio := 0.5,
            high_freq_ratio := 0.2, spectral_centroid := 1200,
            spectral_rolloff := 3000 },
        recommended_gain := 0.9 }).speech_gain = 1 := by
    norm_num [determine_processing_parameters, min_def]
  have hg2 : (determineParamsNoRefine
      { voice_probability := (13421774 : ℚ)/16777216, noise_type := .Speech,
        frequency_profile :=
          { total_energy := 0.5, low_freq_ratio := 0.3, mid_freq_ratio := 0.5,
            high_freq_ratio := 0.2, spectral_centroid := 1200,
            spectral_rolloff := 3000 },
        recommended_gain := 0.9 }).speech_gain = 0.9 := by
    norm_num [determineParamsNoRefine]
  refine ⟨?_, by norm_num, hg1, hg2, ?_⟩
  · rw [vadRunF32_seven_voice]
    norm_num [List.mem_cons]
  · intro heq
    rw [heq, hg2] at hg1
    norm_num at hg1

/-- C10 amended: the fallback detector's raw per-frame probability is
exactly the `f32` value of `0.2` or of `0.8` (`13421773/2^26` resp.
`13421773/2^24`, read at face value `0.2` resp. `0.8`).  Computed in
EXACT arithmetic the smoothed probability always lies in `[0.2, 0.8]`,
and a `voice_probability` in that interval makes both confidence
refinements of `determine_processing_parameters` no-ops.  Under the
program's `f32` averaging, however, the smoothed probability can exceed
`0.8`: after seven consecutive voice frames it is `13421774/2^24`, so
the `voice_probability > 0.8` refinement (raising `speech_gain`) can
trigger. -/
theorem fallback_vad_range_amended :
    (∀ b : Bool,
      vadRawF32 b = 13421773/67108864 ∨ vadRawF32 b = 13421773/16777216) ∧
    (∀ b : Bool,
      current_probability b = 0.2 ∨ current_probability b = 0.8) ∧
    (∀ (bs : List Bool) (q : ℚ), q ∈ vadRun [] bs → 0.2 ≤ q ∧ q ≤ 0.8) ∧
    (∀ ctx : AudioContext,
      0.2 ≤ ctx.voice_probability → ctx.voice_probability ≤ 0.8 →
      determine_processing_parameters ctx = determineParamsNoRefine ctx) ∧
    ((13421774 : ℚ)/16777216 ∈
        vadRunF32 [] [true, true, true, true, true, true, true] ∧
      (13421774 : ℚ)/16777216 > 0.8) := by
  refine ⟨?_, ?_, ?_, ?_, ?_, by norm_num⟩
  · intro b
    cases b
    · exact Or.inl vadRawF32_false
    · exact Or.inr vadRawF32_true
  · intro b
    cases b
    · left; rfl
    · right; rfl
  · intro bs q hq
    exact vadRun_bounds bs [] (by simp) q hq
  · intro ctx h1 h2
    simp only [determine_processing_parameters, determineParamsNoRefine]
    rw [if_neg (not_lt.mpr h2), if_neg (not_lt.mpr h1)]
  · rw [vadRunF32_seven_voice]
    norm_num [List.mem_cons]

end Kwite
